import Mathlib

/-
Verification of the rustpack command-line front end: a shallow embedding of
its history ledger, confirmation prompt, argument parser and transaction
orchestration, with theorems checking the specified properties.

Strings manipulated character-by-character by the Rust code (escaping,
line splitting, trimming) are modelled as `List Char`; Rust `u64` values are
modelled as `Nat` with explicit `< 2 ^ 64` bounds where overflow matters.
-/


deriving instance DecidableEq for Except

namespace Rustpack

/-! ## History ledger: `src/history.rs`

`escape` mirrors `input.replace('\\',"\\\\").replace('|',"\\p").replace('\n',"\\n")`,
three sequential single-character replacements. -/
/-- One `str::replace` pass with a single-character pattern `k` and
replacement `r`. -/
def replaceChar (k : Char) (r : List Char) : List Char → List Char
  | [] => []
  | c :: cs => (if c = k then r else [c]) ++ replaceChar k r cs

/-- `escape` from `history.rs`: backslash first, then pipe, then newline. -/
def escape (s : List Char) : List Char :=
  replaceChar '\n' ['\\', 'n'] (replaceChar '|' ['\\', 'p'] (replaceChar '\\' ['\\', '\\'] s))

/-- The per-character action of `escape`. -/
def escChar (c : Char) : List Char :=
  if c = '\\' then ['\\', '\\']
  else if c = '|' then ['\\', 'p']
  else if c = '\n' then ['\\', 'n']
  else [c]

/-- `unescape` from `history.rs`: the char loop decoding `\\`, `\p`, `\n`,
keeping any other escape verbatim and a trailing lone backslash. -/
def unescape : List Char → List Char
  | [] => []
  | c :: rest =>
    if c = '\\' then
      match rest with
      | [] => ['\\']
      | n :: rest' =>
        if n = '\\' then '\\' :: unescape rest'
        else if n = 'p' then '|' :: unescape rest'
        else if n = 'n' then '\n' :: unescape rest'
        else '\\' :: n :: unescape rest'
    else c :: unescape rest

/-! ### Decimal rendering and `u64` parsing

`now_secs` produces a `u64`; the record id is `format!("{}-{}", now, pid)` and
the timestamp field is printed in decimal. `parse::<u64>` accepts an optional
leading `'+'`, requires at least one character, all decimal digits, and fails
on overflow past `u64::MAX`. -/
/-- The decimal digit character for a value `d < 10`. -/
def digitCh (d : Nat) : Char := Char.ofNat (48 + d)

/-- The numeric value of a decimal digit character. -/
def digitVal (c : Char) : Nat := c.toNat - 48

/-- Fuel-driven decimal rendering helper (most significant digit first). -/
def natToCharsAux : Nat → Nat → List Char
  | 0, _ => []
  | fuel + 1, n =>
    if n < 10 then [digitCh n]
    else natToCharsAux fuel (n / 10) ++ [digitCh (n % 10)]

/-- Decimal rendering of a natural number, as Rust's `u64` `Display`. -/
def natToChars (n : Nat) : List Char := natToCharsAux (n + 1) n

/-- Accumulated value of a most-significant-first digit string. -/
def valOfDigits (ds : List Char) : Nat :=
  ds.foldl (fun a c => a * 10 + digitVal c) 0

/-- Strip the optional leading `'+'` accepted by Rust's `u64::from_str`. -/
def stripPlus : List Char → List Char
  | '+' :: rest => rest
  | cs => cs

/-- Model of `str::parse::<u64>`: optional leading `'+'`, nonempty digit
string, value below `2 ^ 64`. -/
def parse_u64 (cs : List Char) : Option Nat :=
  let ds := stripPlus cs
  if ds = [] then none
  else if ds.all Char.isDigit then
    if valOfDigits ds < 2 ^ 64 then some (valOfDigits ds) else none
  else none

/-! ### `splitn`, `lines` and record parsing -/
/-- Model of Rust `str::splitn(n, c)`: split into at most `n` parts at
occurrences of `c`, the last part keeping any remaining separators. -/
def splitn : Nat → Char → List Char → List (List Char)
  | 0, _, _ => []
  | 1, _, s => [s]
  | _ + 2, _, [] => [[]]
  | n + 2, c, x :: rest =>
    if x = c then [] :: splitn (n + 1) c rest
    else
      match splitn (n + 2) c rest with
      | [] => [[x]]
      | h :: t => (x :: h) :: t

/-- Split at every newline (plain `str::split('\n')`). -/
def splitNl : List Char → List (List Char)
  | [] => [[]]
  | c :: rest =>
    if c = '\n' then [] :: splitNl rest
    else
      match splitNl rest with
      | [] => [[c]]
      | h :: t => (c :: h) :: t

/-- Remove one trailing carriage return, as `str::lines` does per line. -/
def stripCr (l : List Char) : List Char :=
  if l.getLast? = some '\r' then l.dropLast else l

/-- Model of Rust `str::lines`: split on `'\n'` with terminator semantics
(no final empty part), then strip one trailing `'\r'` from each part. -/
def rustLines (s : List Char) : List (List Char) :=
  let parts := splitNl s
  let parts :=
    match parts.getLast? with
    | some [] => parts.dropLast
    | _ => parts
  parts.map stripCr

/-- A parsed history record (`Entry` in `history.rs`). -/
structure Entry where
  id : List Char
  ts : Nat
  op : List Char
  status : List Char
  targets : List Char
  summary : List Char
deriving DecidableEq

/-- `parse_entry` from `history.rs`: `line.splitn(6, '|')`, exactly six
fields required, field 1 parsed as `u64`, the rest unescaped. -/
def parse_entry (line : List Char) : Option Entry :=
  match splitn 6 '|' line with
  | [p0, p1, p2, p3, p4, p5] =>
    match parse_u64 p1 with
    | none => none
    | some ts =>
      some ⟨unescape p0, ts, unescape p2, unescape p3, unescape p4, unescape p5⟩
  | _ => none

/-- The targets field text: `"-"` when empty, else targets joined by spaces. -/
def target_text (targets : List (List Char)) : List Char :=
  if targets = [] then ['-'] else List.intercalate [' '] targets

/-- The record identifier `format!("{}-{}", now, process::id())`. -/
def mkId (now pid : Nat) : List Char :=
  natToChars now ++ '-' :: natToChars pid

/-- The line written by `record`, before the trailing newline:
`escape(id) | now | escape(op) | escape(status) | escape(targets) | escape(summary)`. -/
def record_body (now pid : Nat) (operation status : List Char)
    (targets : List (List Char)) (summary : List Char) : List Char :=
  escape (mkId now pid) ++ '|' ::
    (natToChars now ++ '|' ::
      (escape operation ++ '|' ::
        (escape status ++ '|' ::
          (escape (target_text targets) ++ '|' :: escape summary))))

/-- The full line appended by `record`, including the terminating newline. -/
def record_line (now pid : Nat) (operation status : List Char)
    (targets : List (List Char)) (summary : List Char) : List Char :=
  record_body now pid operation status targets summary ++ ['\n']

/-- `read_entries` applied to already-loaded file content:
`content.lines().filter_map(parse_entry).collect()`. -/
def read_entries_content (content : List Char) : List Entry :=
  (rustLines content).filterMap parse_entry

/-- `read_entries` with the missing-file case: a missing ledger is an empty
history, never an error. -/
def read_entries (file : Option (List Char)) : Except String (List Entry) :=
  match file with
  | none => .ok []
  | some content => .ok (read_entries_content content)

/-- The sequence of identifiers generated by successive `record` calls in one
process, given the wall-clock seconds observed at each call. -/
def record_ids (pid : Nat) (clocks : List Nat) : List (List Char) :=
  clocks.map (fun t => mkId t pid)

/-! ## Confirmation prompt: `confirm_action` in `src/utils.rs`

The prompt reads one stdin line, trims it, lowercases it, and accepts
empty input, `y` and `yes`. -/
/-- Model of `str::trim`: drop whitespace from both ends. -/
def rust_trim (s : List Char) : List Char :=
  ((s.dropWhile Char.isWhitespace).reverse.dropWhile Char.isWhitespace).reverse

/-- `confirm_action` from `utils.rs`, as a function of the raw stdin line:
`response.is_empty() || matches!(response.as_str(), "y" | "yes")` after
trimming and lowercasing. -/
def confirm_action (input : List Char) : Bool :=
  let response := (rust_trim input).map Char.toLower
  response.isEmpty || response == ['y'] || response == ['y', 'e', 's']

/-! ## Command parser: `src/main.rs`

`Operation`, the per-operation flag structs, `set_operation` and the whole of
`parse_args`, including the left-to-right scan, the `--` terminator, long
options with `=value` or following-token values, short-option clusters, and
the post-scan validation chains, in source order. -/
inductive Operation
  | sync
  | query
  | remove
  | upgrade
  | doctor
  | history
  | help
deriving DecidableEq

structure SyncFlags where
  refresh : Bool := false
  upgrade : Bool := false
  search : Bool := false
  info : Bool := false
  cleanCache : Nat := 0
deriving DecidableEq

structure QueryFlags where
  info : Bool := false
  search : Bool := false
  listFiles : Bool := false
  manual : Bool := false
  owns : Bool := false
  explicit : Bool := false
  reverseDeps : Bool := false
deriving DecidableEq

structure RemoveFlags where
  recursive : Bool := false
  nosave : Bool := false
deriving DecidableEq

/-- The cross-cutting flags. `cli.rs` declares the first eleven fields;
`main.rs` additionally reads and writes `strict`, `compact` and `verbose`,
so they are modelled as fields of the same record. `nodeps` is a `u8`
bumped with `saturating_add(1)`. -/
structure GlobalFlags where
  noconfirm : Bool := false
  needed : Bool := false
  overwrite : List String := []
  asdeps : Bool := false
  asexplicit : Bool := false
  nodeps : Nat := 0
  noscriptlet : Bool := false
  rootDir : Option String := none
  dbPath : Option String := none
  cacheDir : Option String := none
  test : Bool := false
  strict : Bool := false
  compact : Bool := false
  verbose : Bool := false
deriving DecidableEq

/-- `u8::saturating_add(1)`. -/
def satAdd8 (n : Nat) : Nat := min (n + 1) 255

structure ParsedArgs where
  op : Operation
  sync : SyncFlags := {}
  query : QueryFlags := {}
  remove : RemoveFlags := {}
  targets : List String := []
  global : GlobalFlags := {}
deriving DecidableEq

/-- `set_operation` from `main.rs`: selecting a second, different operation is
a hard error; re-selecting the same one is a no-op. -/
def set_operation (op : Option Operation) (newOp : Operation) :
    Except String (Option Operation) :=
  match op with
  | some existing =>
    if existing ≠ newOp then
      .error "error: only one operation may be used at a time"
    else
      .ok (some existing)
  | none => .ok (some newOp)

/-- The short-option cluster loop: `S`, `Q`, `R`, `U` select the operation,
anything else accumulates in `flag_chars`. -/
def scan_cluster (op : Option Operation) (fc : List Char) :
    List Char → Except String (Option Operation × List Char)
  | [] => .ok (op, fc)
  | c :: cs =>
    if c = 'S' then
      match set_operation op .sync with
      | .error e => .error e
      | .ok op' => scan_cluster op' fc cs
    else if c = 'Q' then
      match set_operation op .query with
      | .error e => .error e
      | .ok op' => scan_cluster op' fc cs
    else if c = 'R' then
      match set_operation op .remove with
      | .error e => .error e
      | .ok op' => scan_cluster op' fc cs
    else if c = 'U' then
      match set_operation op .upgrade with
      | .error e => .error e
      | .ok op' => scan_cluster op' fc cs
    else scan_cluster op (fc ++ [c]) cs

/-- `arg.starts_with("--")`. -/
def startsDashDash (tok : String) : Bool :=
  match tok.data with
  | '-' :: '-' :: _ => true
  | _ => false

/-- `arg.starts_with('-')`. -/
def startsDash (tok : String) : Bool :=
  match tok.data with
  | '-' :: _ => true
  | _ => false

/-- `str::split_once('=')`. -/
def splitEq : List Char → Option (List Char × List Char)
  | [] => none
  | c :: rest =>
    if c = '=' then some ([], rest)
    else
      match splitEq rest with
      | none => none
      | some (a, b) => some (c :: a, b)

/-- Handling of one long option token: the fixed table from `parse_args`.
Value options take `=value` or consume the following token (the returned
`Bool`); unknown long options are a hard error naming the full token. -/
def apply_long (tok : String) (g : GlobalFlags) (next : Option String) :
    Except String (GlobalFlags × Bool) :=
  let kv :=
    match splitEq tok.data with
    | some (k, v) => (k, some v)
    | none => (tok.data, none)
  let key := kv.1
  let valOpt := kv.2
  if key = ("--test").data ∨ key = ("--dry-run").data then
    .ok ({ g with test := true }, false)
  else if key = ("--noconfirm").data then .ok ({ g with noconfirm := true }, false)
  else if key = ("--needed").data then .ok ({ g with needed := true }, false)
  else if key = ("--nodeps").data then
    .ok ({ g with nodeps := satAdd8 g.nodeps }, false)
  else if key = ("--noscriptlet").data then
    .ok ({ g with noscriptlet := true }, false)
  else if key = ("--asdeps").data then .ok ({ g with asdeps := true }, false)
  else if key = ("--asexplicit").data then .ok ({ g with asexplicit := true }, false)
  else if key = ("--overwrite").data then
    match valOpt with
    | some v => .ok ({ g with overwrite := g.overwrite ++ [String.mk v] }, false)
    | none =>
      match next with
      | some v => .ok ({ g with overwrite := g.overwrite ++ [v] }, true)
      | none => .error "error: --overwrite requires a value"
  else if key = ("--root").data then
    match valOpt with
    | some v => .ok ({ g with rootDir := some (String.mk v) }, false)
    | none =>
      match next with
      | some v => .ok ({ g with rootDir := some v }, true)
      | none => .error "error: --root requires a value"
  else if key = ("--dbpath").data then
    match valOpt with
    | some v => .ok ({ g with dbPath := some (String.mk v) }, false)
    | none =>
      match next with
      | some v => .ok ({ g with dbPath := some v }, true)
      | none => .error "error: --dbpath requires a value"
  else if key = ("--cachedir").data then
    match valOpt with
    | some v => .ok ({ g with cacheDir := some (String.mk v) }, false)
    | none =>
      match next with
      | some v => .ok ({ g with cacheDir := some v }, true)
      | none => .error "error: --cachedir requires a value"
  else if key = ("--strict").data then .ok ({ g with strict := true }, false)
  else if key = ("--compact").data then .ok ({ g with compact := true }, false)
  else if key = ("--verbose").data then .ok ({ g with verbose := true }, false)
  else .error ("error: invalid option '" ++ tok ++ "'")

/-- Result of the token scan: either the early `-h`/`--help` return, or the
accumulated state. -/
inductive ScanOut
  | help
  | st (op : Option Operation) (flagChars : List Char) (targets : List String)
      (global : GlobalFlags)
deriving DecidableEq

/-- The token scan loop of `parse_args`, in source order: `--doctor`,
`--history`, bare `doctor`/`history` (first token only), `-h`/`--help`,
`--`, long options, short clusters, and targets. -/
def scan_tokens : Bool → Bool → Option Operation → List Char → List String →
    GlobalFlags → List String → Except String ScanOut
  | _, _, op, fc, tg, g, [] => .ok (.st op fc tg g)
  | first, inOpt, op, fc, tg, g, tok :: rest =>
    if inOpt ∧ tok = "--doctor" then
      match set_operation op .doctor with
      | .error e => .error e
      | .ok op' => scan_tokens false inOpt op' fc tg g rest
    else if inOpt ∧ tok = "--history" then
      match set_operation op .history with
      | .error e => .error e
      | .ok op' => scan_tokens false inOpt op' fc tg g rest
    else if first ∧ tok = "doctor" then
      match set_operation op .doctor with
      | .error e => .error e
      | .ok op' => scan_tokens false inOpt op' fc tg g rest
    else if first ∧ tok = "history" then
      match set_operation op .history with
      | .error e => .error e
      | .ok op' => scan_tokens false inOpt op' fc tg g rest
    else if inOpt ∧ (tok = "-h" ∨ tok = "--help") then .ok .help
    else if inOpt ∧ tok = "--" then scan_tokens false false op fc tg g rest
    else if inOpt ∧ startsDashDash tok then
      match apply_long tok g rest.head? with
      | .error e => .error e
      | .ok (g', consumed) =>
        if consumed then
          match rest with
          | [] => scan_tokens false inOpt op fc tg g' []
          | _ :: rest' => scan_tokens false inOpt op fc tg g' rest'
        else scan_tokens false inOpt op fc tg g' rest
    else if inOpt ∧ startsDash tok ∧ 1 < tok.data.length then
      match scan_cluster op fc tok.data.tail with
      | .error e => .error e
      | .ok (op', fc') => scan_tokens false inOpt op' fc' tg g rest
    else scan_tokens false inOpt op fc (tg ++ [tok]) g rest

/-- The `-S` sub-flag loop. -/
def apply_sync_chars : SyncFlags → GlobalFlags → List Char →
    Except String (SyncFlags × GlobalFlags)
  | s, g, [] => .ok (s, g)
  | s, g, c :: cs =>
    if c = 'y' then apply_sync_chars { s with refresh := true } g cs
    else if c = 'u' then apply_sync_chars { s with upgrade := true } g cs
    else if c = 's' then apply_sync_chars { s with search := true } g cs
    else if c = 'i' then apply_sync_chars { s with info := true } g cs
    else if c = 'd' then apply_sync_chars s { g with nodeps := satAdd8 g.nodeps } cs
    else if c = 'c' then
      apply_sync_chars { s with cleanCache := satAdd8 s.cleanCache } g cs
    else .error ("error: invalid option '-" ++ String.mk [c] ++ "' for -S")

/-- The `-Q` sub-flag loop. -/
def apply_query_chars : QueryFlags → List Char → Except String QueryFlags
  | q, [] => .ok q
  | q, c :: cs =>
    if c = 'i' then apply_query_chars { q with info := true } cs
    else if c = 's' then apply_query_chars { q with search := true } cs
    else if c = 'l' then apply_query_chars { q with listFiles := true } cs
    else if c = 'm' then apply_query_chars { q with manual := true } cs
    else if c = 'o' then apply_query_chars { q with owns := true } cs
    else if c = 'e' then apply_query_chars { q with explicit := true } cs
    else if c = 'r' then apply_query_chars { q with reverseDeps := true } cs
    else .error ("error: invalid option '-" ++ String.mk [c] ++ "' for -Q")

/-- The `-R` sub-flag loop. -/
def apply_remove_chars : RemoveFlags → GlobalFlags → List Char →
    Except String (RemoveFlags × GlobalFlags)
  | r, g, [] => .ok (r, g)
  | r, g, c :: cs =>
    if c = 's' then apply_remove_chars { r with recursive := true } g cs
    else if c = 'n' then apply_remove_chars { r with nosave := true } g cs
    else if c = 'd' then apply_remove_chars r { g with nodeps := satAdd8 g.nodeps } cs
    else .error ("error: invalid option '-" ++ String.mk [c] ++ "' for -R")

/-- The `-U` sub-flag loop. -/
def apply_upgrade_chars : GlobalFlags → List Char → Except String GlobalFlags
  | g, [] => .ok g
  | g, c :: cs =>
    if c = 'd' then apply_upgrade_chars { g with nodeps := satAdd8 g.nodeps } cs
    else .error ("error: invalid option '-" ++ String.mk [c] ++ "' for -U")

/-- The `-S` validation block. -/
def validate_sync (p : ParsedArgs) : Except String ParsedArgs :=
  if p.sync.search ∧ p.sync.info then
    .error "error: only one of -s or -i can be used with -S"
  else if (p.sync.search ∨ p.sync.info) ∧ (p.sync.refresh ∨ p.sync.upgrade) then
    .error "error: -s/-i cannot be combined with -y/-u"
  else if (p.sync.search ∨ p.sync.info) ∧ p.targets = [] then
    .error "error: no targets specified (use -h for help)"
  else if ¬p.sync.search ∧ ¬p.sync.info ∧ p.targets = [] ∧ ¬p.sync.refresh ∧
      ¬p.sync.upgrade ∧ p.sync.cleanCache = 0 then
    .error "error: no targets specified (use -h for help)"
  else if 0 < p.sync.cleanCache ∧ (p.sync.search ∨ p.sync.info ∨ p.sync.refresh ∨
      p.sync.upgrade ∨ p.targets ≠ []) then
    .error "error: -Sc/-Scc cannot be combined with other -S options"
  else if p.global.asdeps ∧ p.global.asexplicit then
    .error "error: --asdeps and --asexplicit cannot be used together"
  else .ok p

/-- The mutually-exclusive `-Q` option count. -/
def query_option_count (q : QueryFlags) : Nat :=
  (if q.info then 1 else 0) + (if q.search then 1 else 0) +
  (if q.listFiles then 1 else 0) + (if q.manual then 1 else 0) +
  (if q.owns then 1 else 0) + (if q.explicit then 1 else 0) +
  (if q.reverseDeps then 1 else 0)

/-- The `-Q` validation block. -/
def validate_query (p : ParsedArgs) : Except String ParsedArgs :=
  if 1 < query_option_count p.query then
    .error "error: only one of -i, -s, -l, -m, -o, -e, or -r can be used with -Q"
  else if (p.query.info ∨ p.query.search ∨ p.query.listFiles ∨ p.query.owns ∨
      p.query.reverseDeps) ∧ p.targets = [] then
    .error "error: no targets specified (use -h for help)"
  else if p.query.manual ∧ p.targets ≠ [] then
    .error "error: -Qm does not take targets"
  else .ok p

/-- The `-R` validation block. -/
def validate_remove (p : ParsedArgs) : Except String ParsedArgs :=
  if p.targets = [] then .error "error: no targets specified (use -h for help)"
  else if p.global.asdeps ∨ p.global.asexplicit ∨ p.global.needed ∨
      p.global.noscriptlet then
    .error "error: invalid options for -R"
  else .ok p

/-- The `-U` validation block. -/
def validate_upgrade (p : ParsedArgs) : Except String ParsedArgs :=
  if p.targets = [] then .error "error: no targets specified (use -h for help)"
  else .ok p

/-- The per-operation `match op` block of `parse_args`. -/
def op_validate (op : Operation) (fc : List Char) (tg : List String)
    (g : GlobalFlags) : Except String ParsedArgs :=
  match op with
  | .sync =>
    match apply_sync_chars {} g fc with
    | .error e => .error e
    | .ok (s, g') => validate_sync ⟨.sync, s, {}, {}, tg, g'⟩
  | .query =>
    match apply_query_chars {} fc with
    | .error e => .error e
    | .ok q => validate_query ⟨.query, {}, q, {}, tg, g⟩
  | .remove =>
    match apply_remove_chars {} g fc with
    | .error e => .error e
    | .ok (r, g') => validate_remove ⟨.remove, {}, {}, r, tg, g'⟩
  | .upgrade =>
    match apply_upgrade_chars g fc with
    | .error e => .error e
    | .ok g' => validate_upgrade ⟨.upgrade, {}, {}, {}, tg, g'⟩
  | .doctor =>
    if fc ≠ [] then .error "error: doctor does not accept short operation flags"
    else if tg ≠ [] then .error "error: doctor does not take targets"
    else .ok ⟨.doctor, {}, {}, {}, tg, g⟩
  | .history =>
    if fc ≠ [] then .error "error: history does not accept short operation flags"
    else .ok ⟨.history, {}, {}, {}, tg, g⟩
  | .help => .ok ⟨.help, {}, {}, {}, tg, g⟩

/-- The trailing cross-operation checks of `parse_args`: install-only flags,
`--nodeps` scope, `--compact`/`--verbose` conflict, and the strict-mode
rejections, in source order. -/
def cross_checks (p : ParsedArgs) : Except String ParsedArgs :=
  if p.op ≠ .sync ∧ (p.global.needed ∨ p.global.asdeps ∨ p.global.asexplicit ∨
      p.global.noscriptlet) then
    .error "error: --needed/--asdeps/--asexplicit/--noscriptlet only apply to -S"
  else if p.op ≠ .sync ∧ p.global.overwrite ≠ [] then
    .error "error: --overwrite only applies to -S"
  else if p.op = .query ∧ 0 < p.global.nodeps then
    .error "error: --nodeps only applies to -S/-R/-U"
  else if p.global.compact ∧ p.global.verbose then
    .error "error: --compact and --verbose cannot be used together"
  else if p.global.strict ∧ 0 < p.global.nodeps then
    .error "error: --strict disallows --nodeps/-d/-dd"
  else if p.global.strict ∧ p.global.noscriptlet then
    .error "error: --strict disallows --noscriptlet"
  else if p.global.strict ∧ p.global.overwrite ≠ [] then
    .error "error: --strict disallows --overwrite"
  else .ok p

/-- Post-scan validation: per-operation checks, then cross-operation checks. -/
def validate_parsed (op : Operation) (fc : List Char) (tg : List String)
    (g : GlobalFlags) : Except String ParsedArgs :=
  match op_validate op fc tg g with
  | .error e => .error e
  | .ok p => cross_checks p

/-- `parse_args` from `main.rs`, applied to the full `argv` (the scan starts
at index 1, after the program name). -/
def parse_args (argv : List String) : Except String ParsedArgs :=
  match scan_tokens true true none [] [] {} argv.tail with
  | .error e => .error e
  | .ok .help => .ok ⟨.help, {}, {}, {}, [], {}⟩
  | .ok (.st op fc tg g) =>
    match op with
    | none => .error "error: no operation specified (use -h for help)"
    | some o => validate_parsed o fc tg g

/-- The four operation-selecting short option characters. -/
def op_chars : List Char := ['S', 'Q', 'R', 'U']

/-! ## Transaction orchestration: `src/install.rs`

The external libalpm handle is an oracle `Env` fixing the outcome of every
external call. The observable effects of one mutating operation are collected
in a `Trace`: the session state (`trans_init` opens it, `trans_release`
closes it), the number of `trans_release` and `trans_commit` calls, and the
sequence of `history::record` calls (history writes are best-effort in the
source — `let _ = history::record(...)` — so the recorded call is the
observable event). -/
/-- The transaction flags translated from `GlobalFlags` (`alpm::TransFlag`). -/
structure TransFlags where
  needed : Bool := false
  noDeps : Bool := false
  noDepVersion : Bool := false
  noScriptlet : Bool := false
  recurse : Bool := false
  unneeded : Bool := false
  noSave : Bool := false
deriving DecidableEq

/-- Flags built in `install_packages` and `sync_install`: NEEDED, NO_DEPS,
NO_DEP_VERSION, NO_SCRIPTLET. -/
def installTransFlags (g : GlobalFlags) : TransFlags :=
  { needed := g.needed, noDeps := decide (0 < g.nodeps),
    noDepVersion := decide (1 < g.nodeps), noScriptlet := g.noscriptlet }

/-- Flags built in `install_local`: as install but without NEEDED. -/
def localTransFlags (g : GlobalFlags) : TransFlags :=
  { noDeps := decide (0 < g.nodeps), noDepVersion := decide (1 < g.nodeps),
    noScriptlet := g.noscriptlet }

/-- Flags built in `remove_packages`: RECURSE and UNNEEDED for `-Rs`,
NO_SAVE for `-Rn`, plus the dependency bypass levels. -/
def removeTransFlags (r : RemoveFlags) (g : GlobalFlags) : TransFlags :=
  { recurse := r.recursive, unneeded := r.recursive, noSave := r.nosave,
    noDeps := decide (0 < g.nodeps), noDepVersion := decide (1 < g.nodeps) }

/-- A package as seen through the transaction: name and architecture
(`pkg.arch()` is optional). -/
structure Pkg where
  name : String
  arch : Option String
deriving DecidableEq

/-- Oracle for the external libalpm calls made by one mutating operation. -/
structure Env where
  initHandle : Except String Unit
  localFileSiglevel : Except String Unit
  transInit : TransFlags → Except String Unit
  findSync : String → Except String String
  findLocal : String → Except String String
  pkgLoad : String → Except String String
  addPkg : String → Except String Unit
  remPkg : String → Except String Unit
  prepare : Except String Unit
  architectures : List String
  transAddPkgs : List Pkg
  transRemovePkgs : List String
  stdin : List Char
  commit : Except String Unit
  dbUpdate : Except String Unit
  sysupgrade : Except String Unit

inductive SessionState
  | unopened
  | opened
  | closed
deriving DecidableEq

/-- One `history::record` call observed during orchestration. -/
structure HRec where
  operation : String
  status : String
  targets : List String
  summary : String
deriving DecidableEq

/-- Observable effects of one mutating operation. -/
structure Trace where
  session : SessionState := .unopened
  releases : Nat := 0
  commits : Nat := 0
  history : List HRec := []
deriving DecidableEq

structure Outcome where
  result : Except String Unit
  trace : Trace
deriving DecidableEq

/-- `handle.trans_release()`. -/
def release (t : Trace) : Trace :=
  { t with session := .closed, releases := t.releases + 1 }

/-- A `history::record` call (best-effort: its own failure is discarded). -/
def recordCall (t : Trace) (operation status : String) (targets : List String)
    (summary : String) : Trace :=
  { t with history := t.history ++ [⟨operation, status, targets, summary⟩] }

/-- Character-list prefix test. -/
def leadsWith : List Char → List Char → Bool
  | [], _ => true
  | _ :: _, [] => false
  | p :: ps, c :: cs => p == c && leadsWith ps cs

/-- Character-list substring test (`str::contains`). -/
def containsSub (pat : List Char) : List Char → Bool
  | [] => leadsWith pat []
  | c :: cs => leadsWith pat (c :: cs) || containsSub pat cs

/-- `msg.to_lowercase().contains("architecture")`. -/
def msgMentionsArchitecture (msg : String) : Bool :=
  containsSub ("architecture").data (msg.data.map Char.toLower)

/-- The offending-package list computed in `trans_prepare_or_release`:
packages in `trans_add()` whose architecture is neither `any` nor allowed. -/
def arch_offenders (env : Env) : List String :=
  (env.transAddPkgs.filter (fun p =>
    (p.arch.getD "unknown" != "any") &&
      !(env.architectures.contains (p.arch.getD "unknown")))).map
    (fun p => p.name ++ " (" ++ p.arch.getD "unknown" ++ ")")

/-- `trans_prepare_or_release` from `install.rs`: on `trans_prepare` failure
the session is released before the error is surfaced, and an
architecture-mismatch message is enriched with the offending packages and
the allowed architecture set. -/
def trans_prepare_or_release (env : Env) (t : Trace) :
    Trace × Except String Unit :=
  match env.prepare with
  | .ok _ => (t, .ok ())
  | .error msg =>
    let t := release t
    if msgMentionsArchitecture msg then
      let offenders := arch_offenders env
      if offenders ≠ [] then
        (t, .error (msg ++ "\nAllowed architectures: " ++
          String.intercalate ", " env.architectures ++
          "\nInvalid package architectures: " ++
          String.intercalate ", " offenders))
      else (t, .error msg)
    else (t, .error msg)

/-- The target loop of `install_packages` and `sync_install`:
`find_sync_pkg` then `trans_add_pkg`, aborting on the first failure. -/
def add_sync_targets (env : Env) : List String → Except String Unit
  | [] => .ok ()
  | name :: rest =>
    match env.findSync name with
    | .error e => .error e
    | .ok p =>
      match env.addPkg p with
      | .error e => .error e
      | .ok _ => add_sync_targets env rest

/-- The target loop of `remove_packages`: `find_local_pkg` then
`trans_remove_pkg`. -/
def add_remove_targets (env : Env) : List String → Except String Unit
  | [] => .ok ()
  | name :: rest =>
    match env.findLocal name with
    | .error e => .error e
    | .ok p =>
      match env.remPkg p with
      | .error e => .error e
      | .ok _ => add_remove_targets env rest

/-- The file loop of `install_local`: `pkg_load`, collect the package name,
then `trans_add_pkg`. -/
def load_local_files (env : Env) : List String → Except String (List String)
  | [] => .ok []
  | file :: rest =>
    match env.pkgLoad file with
    | .error e => .error e
    | .ok name =>
      match env.addPkg name with
      | .error e => .error e
      | .ok _ =>
        match load_local_files env rest with
        | .error e => .error e
        | .ok names => .ok (name :: names)

/-- `warn_remove_breakage`: skipped for `-Rs`; otherwise each target must
exist in the local database (the printed dependent warnings have no
observable effect here). -/
def warn_remove_lookup (env : Env) : List String → Except String Unit
  | [] => .ok ()
  | name :: rest =>
    match env.findLocal name with
    | .error _ => .error ("error: package '" ++ name ++ "' was not found")
    | .ok _ => warn_remove_lookup env rest

def warn_remove_breakage (env : Env) (packages : List String)
    (r : RemoveFlags) : Except String Unit :=
  if r.recursive then .ok () else warn_remove_lookup env packages

/-- `apply_install_reasons`: best-effort postprocessing; every failure inside
is discarded, so it always returns `Ok(())`. -/
def apply_install_reasons (_env : Env) (_targets : List String)
    (_g : GlobalFlags) : Except String Unit := .ok ()

/-- `main`'s exit-code mapping: a runtime error exits 1, otherwise 0. -/
def exit_code (r : Except String Unit) : Nat :=
  match r with
  | .ok _ => 0
  | .error _ => 1

/-- `install_packages` from `install.rs`. -/
def install_packages (env : Env) (packages : List String) (g : GlobalFlags) :
    Outcome :=
  match env.initHandle with
  | .error e => ⟨.error e, {}⟩
  | .ok _ =>
    match env.transInit (installTransFlags g) with
    | .error e => ⟨.error e, {}⟩
    | .ok _ =>
      let t : Trace := { session := .opened }
      match add_sync_targets env packages with
      | .error e => ⟨.error e, t⟩
      | .ok _ =>
        match trans_prepare_or_release env t with
        | (t, .error e) => ⟨.error e, t⟩
        | (t, .ok _) =>
          if (env.transAddPkgs.map Pkg.name).isEmpty then
            let t := release t
            let t := recordCall t "install" "noop" packages "no packages to install"
            ⟨.ok (), t⟩
          else if !g.test && !g.noconfirm && !confirm_action env.stdin then
            let t := release t
            let t := recordCall t "install" "cancelled" packages
              "user cancelled transaction"
            ⟨.ok (), t⟩
          else if g.test then
            let t := release t
            let t := recordCall t "install" "dry-run" packages
              "commit skipped by --test"
            ⟨.ok (), t⟩
          else
            let commit := env.commit
            let t := { t with commits := t.commits + 1 }
            let t := release t
            match commit with
            | .ok _ =>
              let _reasons := apply_install_reasons env packages g
              ⟨.ok (), recordCall t "install" "success" packages
                "transaction committed"⟩
            | .error e =>
              ⟨.error e, recordCall t "install" "failed" packages
                "transaction commit failed"⟩

/-- `install_local` from `install.rs`. -/
def install_local (env : Env) (g : GlobalFlags) (pkg_files : List String) :
    Outcome :=
  match env.initHandle with
  | .error e => ⟨.error e, {}⟩
  | .ok _ =>
    match env.localFileSiglevel with
    | .error e => ⟨.error e, {}⟩
    | .ok _ =>
      match env.transInit (localTransFlags g) with
      | .error e => ⟨.error e, {}⟩
      | .ok _ =>
        let t : Trace := { session := .opened }
        match load_local_files env pkg_files with
        | .error e => ⟨.error e, t⟩
        | .ok names =>
          match trans_prepare_or_release env t with
          | (t, .error e) => ⟨.error e, t⟩
          | (t, .ok _) =>
            if (env.transAddPkgs.map Pkg.name).isEmpty then
              let t := release t
              let t := recordCall t "install-local" "noop" names
                "no packages to install"
              ⟨.ok (), t⟩
            else if !g.test && !g.noconfirm && !confirm_action env.stdin then
              let t := release t
              let t := recordCall t "install-local" "cancelled" names
                "user cancelled transaction"
              ⟨.ok (), t⟩
            else if g.test then
              let t := release t
              let t := recordCall t "install-local" "dry-run" names
                "commit skipped by --test"
              ⟨.ok (), t⟩
            else
              let commit := env.commit
              let t := { t with commits := t.commits + 1 }
              let t := release t
              match commit with
              | .ok _ =>
                let _reasons := apply_install_reasons env names g
                ⟨.ok (), recordCall t "install-local" "success" names
                  "transaction committed"⟩
              | .error e =>
                ⟨.error e, recordCall t "install-local" "failed" names
                  "transaction commit failed"⟩

/-- `remove_packages` from `install.rs`. -/
def remove_packages (env : Env) (packages : List String) (r : RemoveFlags)
    (g : GlobalFlags) : Outcome :=
  match env.initHandle with
  | .error e => ⟨.error e, {}⟩
  | .ok _ =>
    match warn_remove_breakage env packages r with
    | .error e => ⟨.error e, {}⟩
    | .ok _ =>
      match env.transInit (removeTransFlags r g) with
      | .error e => ⟨.error e, {}⟩
      | .ok _ =>
        let t : Trace := { session := .opened }
        match add_remove_targets env packages with
        | .error e => ⟨.error e, t⟩
        | .ok _ =>
          match trans_prepare_or_release env t with
          | (t, .error e) => ⟨.error e, t⟩
          | (t, .ok _) =>
            if env.transRemovePkgs.isEmpty then
              let t := release t
              let t := recordCall t "remove" "noop" packages
                "no packages to remove"
              ⟨.ok (), t⟩
            else if !g.test && !g.noconfirm && !confirm_action env.stdin then
              let t := release t
              let t := recordCall t "remove" "cancelled" packages
                "user cancelled transaction"
              ⟨.ok (), t⟩
            else if g.test then
              let t := release t
              let t := recordCall t "remove" "dry-run" packages
                "commit skipped by --test"
              ⟨.ok (), t⟩
            else
              let commit := env.commit
              let t := { t with commits := t.commits + 1 }
              let t := release t
              match commit with
              | .ok _ =>
                ⟨.ok (), recordCall t "remove" "success" packages
                  "transaction committed"⟩
              | .error e =>
                ⟨.error e, recordCall t "remove" "failed" packages
                  "transaction commit failed"⟩

/-- `sync_install` from `install.rs`. -/
def sync_install (env : Env) (g : GlobalFlags) (refresh upgrade : Bool)
    (targets : List String) : Outcome :=
  match env.initHandle with
  | .error e => ⟨.error e, {}⟩
  | .ok _ =>
    match (if refresh then (if g.test then .ok () else env.dbUpdate)
        else Except.ok ()) with
    | .error e => ⟨.error e, {}⟩
    | .ok _ =>
      if !upgrade && targets.isEmpty then ⟨.ok (), {}⟩
      else
        match env.transInit (installTransFlags g) with
        | .error e => ⟨.error e, {}⟩
        | .ok _ =>
          let t : Trace := { session := .opened }
          match (if upgrade then env.sysupgrade else Except.ok ()) with
          | .error e => ⟨.error e, t⟩
          | .ok _ =>
            match add_sync_targets env targets with
            | .error e => ⟨.error e, t⟩
            | .ok _ =>
              match trans_prepare_or_release env t with
              | (t, .error e) => ⟨.error e, t⟩
              | (t, .ok _) =>
                if (env.transAddPkgs.map Pkg.name).isEmpty then
                  let t := release t
                  let t := recordCall t "sync" "noop" targets
                    "no package changes"
                  ⟨.ok (), t⟩
                else if !g.test && !g.noconfirm && !confirm_action env.stdin then
                  let t := release t
                  let t := recordCall t "sync" "cancelled" targets
                    "user cancelled transaction"
                  ⟨.ok (), t⟩
                else if g.test then
                  let t := release t
                  let t := recordCall t "sync" "dry-run" targets
                    "commit skipped by --test"
                  ⟨.ok (), t⟩
                else
                  let commit := env.commit
                  let t := { t with commits := t.commits + 1 }
                  let t := release t
                  match commit with
                  | .ok _ =>
                    let _reasons := apply_install_reasons env targets g
                    ⟨.ok (), recordCall t "sync" "success" targets
                      "transaction committed"⟩
                  | .error e =>
                    ⟨.error e, recordCall t "sync" "failed" targets
                      "transaction commit failed"⟩

/-- An oracle in which every external call succeeds and both changesets are
empty. -/
def envBase : Env :=
  { initHandle := .ok (), localFileSiglevel := .ok (),
    transInit := fun _ => .ok (), findSync := fun name => .ok name,
    findLocal := fun name => .ok name, pkgLoad := fun file => .ok file,
    addPkg := fun _ => .ok (), remPkg := fun _ => .ok (),
    prepare := .ok (), architectures := ["x86_64"],
    transAddPkgs := [], transRemovePkgs := [],
    stdin := [], commit := .ok (), dbUpdate := .ok (), sysupgrade := .ok () }

/-- An oracle in which no sync target resolves (`find_sync_pkg` fails). -/
def envUnresolved : Env :=
  { envBase with
    findSync := fun name => .error ("error: target not found: " ++ name) }

/-- An oracle with a nonempty changeset and a stdin line declining the
confirmation prompt. -/
def envDecline : Env :=
  { envBase with
    transAddPkgs := [⟨"pkg", some "x86_64"⟩],
    transRemovePkgs := ["pkg"],
    stdin := ['n', '\n'] }

/-! ## Theorems -/

theorem replaceChar_append (k : Char) (r : List Char) (a b : List Char) :
    replaceChar k r (a ++ b) = replaceChar k r a ++ replaceChar k r b := by
  induction a with
  | nil => rfl
  | cons x a ih => simp [replaceChar, ih]

theorem escape_nil : escape [] = [] := rfl

theorem escape_cons (c : Char) (s : List Char) :
    escape (c :: s) = escChar c ++ escape s := by
  by_cases h1 : c = '\\'
  · subst h1; simp [escape, escChar, replaceChar]
  · by_cases h2 : c = '|'
    · subst h2; simp [escape, escChar, replaceChar]
    · by_cases h3 : c = '\n'
      · subst h3; simp [escape, escChar, replaceChar]
      · simp [escape, escChar, replaceChar, h1, h2, h3]

theorem unescape_escape (s : List Char) : unescape (escape s) = s := by
  induction s with
  | nil => rfl
  | cons c s ih =>
    rw [escape_cons]
    by_cases h1 : c = '\\'
    · subst h1
      show unescape ('\\' :: '\\' :: escape s) = '\\' :: s
      rw [unescape.eq_def]
      simp [ih]
    · by_cases h2 : c = '|'
      · subst h2
        show unescape ('\\' :: 'p' :: escape s) = '|' :: s
        rw [unescape.eq_def]
        simp [ih]
      · by_cases h3 : c = '\n'
        · subst h3
          show unescape ('\\' :: 'n' :: escape s) = '\n' :: s
          rw [unescape.eq_def]
          simp [ih]
        · show unescape ((if c = '\\' then ['\\', '\\']
              else if c = '|' then ['\\', 'p']
              else if c = '\n' then ['\\', 'n']
              else [c]) ++ escape s) = c :: s
          rw [if_neg h1, if_neg h2, if_neg h3]
          show unescape (c :: escape s) = c :: s
          rw [unescape.eq_def]
          simp [h1, ih]

theorem escChar_ne_nil (c : Char) : escChar c ≠ [] := by
  unfold escChar
  split
  · simp
  · split
    · simp
    · split <;> simp

theorem escape_eq_nil_iff (s : List Char) : escape s = [] ↔ s = [] := by
  cases s with
  | nil => simp [escape_nil]
  | cons c s =>
    rw [escape_cons]
    simp only [List.append_eq_nil]
    constructor
    · rintro ⟨h, -⟩; exact absurd h (escChar_ne_nil c)
    · intro h; exact absurd h (by simp)

theorem mem_escChar {c x : Char} (hx : x ∈ escChar c) : x ≠ '|' ∧ x ≠ '\n' := by
  unfold escChar at hx
  by_cases h1 : c = '\\'
  · rw [if_pos h1] at hx
    simp at hx
    subst hx
    exact ⟨by decide, by decide⟩
  · rw [if_neg h1] at hx
    by_cases h2 : c = '|'
    · rw [if_pos h2] at hx
      simp at hx
      rcases hx with rfl | rfl <;> exact ⟨by decide, by decide⟩
    · rw [if_neg h2] at hx
      by_cases h3 : c = '\n'
      · rw [if_pos h3] at hx
        simp at hx
        rcases hx with rfl | rfl <;> exact ⟨by decide, by decide⟩
      · rw [if_neg h3] at hx
        simp at hx
        subst hx
        exact ⟨h2, h3⟩

theorem escape_no_pipe (s : List Char) : ∀ x ∈ escape s, x ≠ '|' := by
  induction s with
  | nil => simp [escape_nil]
  | cons c s ih =>
    rw [escape_cons]
    intro x hx
    rcases List.mem_append.mp hx with h | h
    · exact (mem_escChar h).1
    · exact ih x h

theorem escape_no_newline (s : List Char) : ∀ x ∈ escape s, x ≠ '\n' := by
  induction s with
  | nil => simp [escape_nil]
  | cons c s ih =>
    rw [escape_cons]
    intro x hx
    rcases List.mem_append.mp hx with h | h
    · exact (mem_escChar h).2
    · exact ih x h

theorem getLast?_append_right (a : List Char) :
    ∀ b : List Char, b ≠ [] → (a ++ b).getLast? = b.getLast? := by
  induction a with
  | nil => intro b _; rfl
  | cons x a ih =>
    intro b hb
    rw [List.cons_append]
    cases hab : a ++ b with
    | nil => exact absurd (List.append_eq_nil.mp hab).2 hb
    | cons y l =>
      rw [List.getLast?_cons_cons, ← hab]
      exact ih b hb

theorem getLast?_cons_of_ne_nil (x : Char) (l : List Char) (h : l ≠ []) :
    (x :: l).getLast? = l.getLast? := by
  cases l with
  | nil => exact absurd rfl h
  | cons y t => rw [List.getLast?_cons_cons]

/-- A field escaped by `escape` ends with a carriage return exactly when the
original string does: `escape` leaves `'\r'` untouched and the replacement
sequences end in `'\\'`, `'p'` or `'n'`. -/
theorem escape_getLast_cr (s : List Char) :
    (escape s).getLast? = some '\r' ↔ s.getLast? = some '\r' := by
  induction s with
  | nil => simp [escape_nil]
  | cons c s ih =>
    rw [escape_cons]
    by_cases hs : s = []
    · subst hs
      simp only [escape_nil, List.append_nil]
      unfold escChar
      by_cases h1 : c = '\\'
      · subst h1; decide
      · rw [if_neg h1]
        by_cases h2 : c = '|'
        · subst h2; decide
        · rw [if_neg h2]
          by_cases h3 : c = '\n'
          · subst h3; decide
          · rw [if_neg h3]
    · have hes : escape s ≠ [] := fun h => hs ((escape_eq_nil_iff s).mp h)
      rw [getLast?_append_right _ _ hes, getLast?_cons_of_ne_nil c s hs]
      exact ih

theorem digitCh_toNat {d : Nat} (h : d < 10) : (digitCh d).toNat = 48 + d := by
  interval_cases d <;> rfl

theorem digitCh_isDigit {d : Nat} (h : d < 10) : (digitCh d).isDigit = true := by
  interval_cases d <;> decide

theorem valOfDigits_append (ds : List Char) (c : Char) :
    valOfDigits (ds ++ [c]) = valOfDigits ds * 10 + digitVal c := by
  unfold valOfDigits
  rw [List.foldl_append]
  rfl

theorem natToCharsAux_spec :
    ∀ fuel n, n < fuel →
      valOfDigits (natToCharsAux fuel n) = n ∧
      (∀ c ∈ natToCharsAux fuel n, c.isDigit = true) ∧
      natToCharsAux fuel n ≠ [] := by
  intro fuel
  induction fuel with
  | zero => intro n h; omega
  | succ fuel ih =>
    intro n h
    rw [natToCharsAux]
    by_cases h10 : n < 10
    · rw [if_pos h10]
      refine ⟨?_, ?_, by simp⟩
      · show 0 * 10 + digitVal (digitCh n) = n
        unfold digitVal
        rw [digitCh_toNat h10]
        omega
      · intro c hc
        rw [List.mem_singleton.mp hc]
        exact digitCh_isDigit h10
    · rw [if_neg h10]
      have hdiv : n / 10 < n := Nat.div_lt_self (by omega) (by omega)
      obtain ⟨hval, hdig, -⟩ := ih (n / 10) (by omega)
      refine ⟨?_, ?_, by simp⟩
      · rw [valOfDigits_append, hval]
        unfold digitVal
        rw [digitCh_toNat (Nat.mod_lt n (by omega))]
        omega
      · intro c hc
        rcases List.mem_append.mp hc with hm | hm
        · exact hdig c hm
        · rw [List.mem_singleton.mp hm]
          exact digitCh_isDigit (Nat.mod_lt n (by omega))

theorem valOfDigits_natToChars (n : Nat) : valOfDigits (natToChars n) = n :=
  (natToCharsAux_spec (n + 1) n (by omega)).1

theorem natToChars_digits (n : Nat) : ∀ c ∈ natToChars n, c.isDigit = true :=
  (natToCharsAux_spec (n + 1) n (by omega)).2.1

theorem natToChars_ne_nil (n : Nat) : natToChars n ≠ [] :=
  (natToCharsAux_spec (n + 1) n (by omega)).2.2

theorem natToChars_injective {a b : Nat} (h : natToChars a = natToChars b) :
    a = b := by
  have := valOfDigits_natToChars a
  rw [h, valOfDigits_natToChars] at this
  omega

theorem isDigit_ne_special {c : Char} (h : c.isDigit = true) :
    c ≠ '|' ∧ c ≠ '\n' ∧ c ≠ '-' ∧ c ≠ '\r' ∧ c ≠ '+' := by
  refine ⟨?_, ?_, ?_, ?_, ?_⟩ <;> (intro hc; subst hc; exact absurd h (by decide))

theorem stripPlus_of_ne_plus {c : Char} (rest : List Char) (h : c ≠ '+') :
    stripPlus (c :: rest) = c :: rest := by
  unfold stripPlus
  split
  · rename_i heq
    simp at heq
    exact absurd heq.1 h
  · rfl

theorem parse_u64_natToChars (n : Nat) (h : n < 2 ^ 64) :
    parse_u64 (natToChars n) = some n := by
  have hdig := natToChars_digits n
  have hstrip : stripPlus (natToChars n) = natToChars n := by
    cases hn : natToChars n with
    | nil => exact absurd hn (natToChars_ne_nil n)
    | cons c rest =>
      have hc : c.isDigit = true := hdig c (by rw [hn]; exact List.mem_cons_self c rest)
      exact stripPlus_of_ne_plus rest (isDigit_ne_special hc).2.2.2.2
  unfold parse_u64
  simp only [hstrip]
  rw [if_neg (natToChars_ne_nil n)]
  rw [if_pos (List.all_eq_true.mpr hdig)]
  rw [valOfDigits_natToChars]
  rw [if_pos h]

theorem splitn_one (c : Char) (s : List Char) : splitn 1 c s = [s] := by
  cases s <;> rfl

theorem splitn_step (n : Nat) (c : Char) (pre rest : List Char)
    (h : ∀ x ∈ pre, x ≠ c) :
    splitn (n + 2) c (pre ++ c :: rest) = pre :: splitn (n + 1) c rest := by
  induction pre with
  | nil => simp [splitn]
  | cons x pre ih =>
    have hx : x ≠ c := h x (List.mem_cons_self x pre)
    have ih' := ih (fun y hy => h y (List.mem_cons_of_mem x hy))
    rw [List.cons_append, splitn.eq_def]
    simp only [hx, if_false, ih']

theorem splitNl_terminated (body : List Char) (h : '\n' ∉ body) :
    splitNl (body ++ ['\n']) = [body, []] := by
  induction body with
  | nil => simp [splitNl]
  | cons c body ih =>
    have hc : c ≠ '\n' := fun hc => h (by rw [hc]; exact List.mem_cons_self _ _)
    have ih' := ih (fun hm => h (List.mem_cons_of_mem c hm))
    rw [List.cons_append, splitNl.eq_def]
    simp only [hc, if_false, ih']

theorem rustLines_single (body : List Char) (h : '\n' ∉ body) :
    rustLines (body ++ ['\n']) = [stripCr body] := by
  unfold rustLines
  rw [splitNl_terminated body h]
  rfl

theorem natToChars_no_dash (n : Nat) : ∀ x ∈ natToChars n, x ≠ '-' :=
  fun x hx => (isDigit_ne_special (natToChars_digits n x hx)).2.2.1

theorem natToChars_no_pipe (n : Nat) : ∀ x ∈ natToChars n, x ≠ '|' :=
  fun x hx => (isDigit_ne_special (natToChars_digits n x hx)).1

theorem natToChars_no_newline (n : Nat) : ∀ x ∈ natToChars n, x ≠ '\n' :=
  fun x hx => (isDigit_ne_special (natToChars_digits n x hx)).2.1

theorem append_sep_inj {sep : Char} :
    ∀ {a : List Char} {c b d : List Char},
      (∀ x ∈ a, x ≠ sep) → (∀ x ∈ c, x ≠ sep) →
      a ++ sep :: b = c ++ sep :: d → a = c ∧ b = d := by
  intro a
  induction a with
  | nil =>
    intro c b d _ hc h
    cases c with
    | nil =>
      simp only [List.nil_append, List.cons.injEq] at h
      exact ⟨rfl, h.2⟩
    | cons y c' =>
      rw [List.nil_append, List.cons_append, List.cons.injEq] at h
      exact absurd h.1.symm (hc y (List.mem_cons_self y c'))
  | cons x a' ih =>
    intro c b d ha hc h
    cases c with
    | nil =>
      rw [List.cons_append, List.nil_append, List.cons.injEq] at h
      exact absurd h.1 (ha x (List.mem_cons_self x a'))
    | cons y c' =>
      rw [List.cons_append, List.cons_append, List.cons.injEq] at h
      obtain ⟨hxy, htail⟩ := h
      obtain ⟨h1, h2⟩ := ih (fun z hz => ha z (List.mem_cons_of_mem x hz))
        (fun z hz => hc z (List.mem_cons_of_mem y hz)) htail
      exact ⟨by rw [hxy, h1], h2⟩

theorem mem_field_chain {c : Char} {f0 f1 f2 f3 f4 f5 : List Char}
    (hm : c ∈ f0 ++ '|' :: (f1 ++ '|' :: (f2 ++ '|' :: (f3 ++ '|' ::
      (f4 ++ '|' :: f5))))) :
    c = '|' ∨ c ∈ f0 ∨ c ∈ f1 ∨ c ∈ f2 ∨ c ∈ f3 ∨ c ∈ f4 ∨ c ∈ f5 := by
  simp only [List.mem_append, List.mem_cons] at hm
  tauto

theorem record_body_no_newline (now pid : Nat) (operation status : List Char)
    (targets : List (List Char)) (summary : List Char) :
    '\n' ∉ record_body now pid operation status targets summary := by
  intro hm
  unfold record_body at hm
  rcases mem_field_chain hm with h | h | h | h | h | h | h
  · exact absurd h (by decide)
  · exact escape_no_newline _ _ h rfl
  · exact natToChars_no_newline _ _ h rfl
  · exact escape_no_newline _ _ h rfl
  · exact escape_no_newline _ _ h rfl
  · exact escape_no_newline _ _ h rfl
  · exact escape_no_newline _ _ h rfl

theorem splitn_record_body (now pid : Nat) (operation status : List Char)
    (targets : List (List Char)) (summary : List Char) :
    splitn 6 '|' (record_body now pid operation status targets summary) =
      [escape (mkId now pid), natToChars now, escape operation, escape status,
        escape (target_text targets), escape summary] := by
  unfold record_body
  have e4 := splitn_step 0 '|' (escape (target_text targets)) (escape summary)
    (escape_no_pipe _)
  have e3 := splitn_step 1 '|' (escape status)
    (escape (target_text targets) ++ '|' :: escape summary) (escape_no_pipe _)
  have e2 := splitn_step 2 '|' (escape operation)
    (escape status ++ '|' :: (escape (target_text targets) ++ '|' :: escape summary))
    (escape_no_pipe _)
  have e1 := splitn_step 3 '|' (natToChars now)
    (escape operation ++ '|' :: (escape status ++ '|' ::
      (escape (target_text targets) ++ '|' :: escape summary)))
    (natToChars_no_pipe now)
  have e0 := splitn_step 4 '|' (escape (mkId now pid))
    (natToChars now ++ '|' :: (escape operation ++ '|' :: (escape status ++ '|' ::
      (escape (target_text targets) ++ '|' :: escape summary))))
    (escape_no_pipe _)
  norm_num at e0 e1 e2 e3 e4
  rw [e0, e1, e2, e3, e4, splitn_one]

theorem parse_entry_record_body (now pid : Nat) (operation status : List Char)
    (targets : List (List Char)) (summary : List Char) (hnow : now < 2 ^ 64) :
    parse_entry (record_body now pid operation status targets summary) =
      some ⟨mkId now pid, now, operation, status, target_text targets, summary⟩ := by
  unfold parse_entry
  rw [splitn_record_body]
  simp [parse_u64_natToChars now hnow, unescape_escape]

theorem record_body_getLast_ne_cr (now pid : Nat) (operation status : List Char)
    (targets : List (List Char)) (summary : List Char)
    (hsum : summary.getLast? ≠ some '\r') :
    (record_body now pid operation status targets summary).getLast? ≠ some '\r' := by
  unfold record_body
  rw [getLast?_append_right _ _ (by simp)]
  rw [getLast?_cons_of_ne_nil _ _ (by simp)]
  rw [getLast?_append_right _ _ (by simp)]
  rw [getLast?_cons_of_ne_nil _ _ (by simp)]
  rw [getLast?_append_right _ _ (by simp)]
  rw [getLast?_cons_of_ne_nil _ _ (by simp)]
  rw [getLast?_append_right _ _ (by simp)]
  rw [getLast?_cons_of_ne_nil _ _ (by simp)]
  rw [getLast?_append_right _ _ (by simp)]
  by_cases hes : escape summary = []
  · rw [hes]
    decide
  · rw [getLast?_cons_of_ne_nil _ _ hes]
    intro hcon
    exact hsum ((escape_getLast_cr summary).mp hcon)

theorem read_record_line (now pid : Nat) (operation status : List Char)
    (targets : List (List Char)) (summary : List Char)
    (hnow : now < 2 ^ 64) (hsum : summary.getLast? ≠ some '\r') :
    read_entries_content (record_line now pid operation status targets summary) =
      [⟨mkId now pid, now, operation, status, target_text targets, summary⟩] := by
  unfold read_entries_content record_line
  rw [rustLines_single _ (record_body_no_newline now pid operation status targets summary)]
  have hcr : stripCr (record_body now pid operation status targets summary) =
      record_body now pid operation status targets summary := by
    unfold stripCr
    rw [if_neg (record_body_getLast_ne_cr now pid operation status targets summary hsum)]
  rw [hcr]
  simp [List.filterMap,
    parse_entry_record_body now pid operation status targets summary hnow]

theorem record_line_one_newline (now pid : Nat) (operation status : List Char)
    (targets : List (List Char)) (summary : List Char) :
    (record_line now pid operation status targets summary).count '\n' = 1 := by
  unfold record_line
  rw [List.count_append]
  rw [List.count_eq_zero.mpr (record_body_no_newline now pid operation status targets summary)]
  rfl

theorem confirm_action_default_yes (input : List Char)
    (h : rust_trim input = []) : confirm_action input = true := by
  unfold confirm_action
  rw [h]
  rfl

/-! ## Parser theorems -/
theorem cross_checks_ok {q p : ParsedArgs} (h : cross_checks q = .ok p) :
    p = q ∧ (p.global.strict = true →
      p.global.nodeps = 0 ∧ p.global.noscriptlet = false ∧
        p.global.overwrite = []) := by
  unfold cross_checks at h
  split at h
  · exact absurd h (by simp)
  · split at h
    · exact absurd h (by simp)
    · split at h
      · exact absurd h (by simp)
      · split at h
        · exact absurd h (by simp)
        · split at h
          · exact absurd h (by simp)
          · split at h
            · exact absurd h (by simp)
            · split at h
              · exact absurd h (by simp)
              · rename_i h1 h2 h3 h4 h5 h6 h7
                have hpq : p = q := by
                  injection h with h'
                  exact h'.symm
                subst hpq
                refine ⟨rfl, fun hs => ⟨?_, ?_, ?_⟩⟩
                · by_contra hc
                  exact h5 ⟨hs, by omega⟩
                · by_contra hc
                  exact h6 ⟨hs, by
                    cases hns : p.global.noscriptlet
                    · exact absurd hns hc
                    · rfl⟩
                · by_contra hc
                  exact h7 ⟨hs, hc⟩

theorem validate_parsed_ok {op : Operation} {fc : List Char} {tg : List String}
    {g : GlobalFlags} {p : ParsedArgs}
    (h : validate_parsed op fc tg g = .ok p) :
    p.global.strict = true →
      p.global.nodeps = 0 ∧ p.global.noscriptlet = false ∧
        p.global.overwrite = [] := by
  unfold validate_parsed at h
  cases hov : op_validate op fc tg g with
  | error e => rw [hov] at h; exact absurd h (by simp)
  | ok q =>
    rw [hov] at h
    exact (cross_checks_ok h).2

theorem list_isEmpty_false {α : Type} {l : List α} (h : l ≠ []) :
    l.isEmpty = false := by
  cases l
  · exact absurd rfl h
  · rfl

theorem map_name_isEmpty_false {env : Env} (h : env.transAddPkgs ≠ []) :
    (env.transAddPkgs.map Pkg.name).isEmpty = false := by
  cases hc : env.transAddPkgs
  · exact absurd hc h
  · rfl

/-! ## Claim theorems -/
/-- C1: the spec guarantees the transaction session reaches Closed on every
exit path of a mutating operation, explicitly including a target that fails
to resolve (or to be added) after the transaction has been initialized. The
code violates this: in `install_packages` (and likewise in `sync_install`,
`remove_packages` and `install_local`) the target loop after `trans_init`
propagates a failure with `?` and never calls `trans_release`, so the
session is left open. Evaluated at the failing input `-S ghost` with
`ghost` unresolved: the operation returns the resolution error with the
session still `opened`, zero releases. -/
theorem C1_session_left_open_on_unresolved_target :
    install_packages envUnresolved ["ghost"] {} =
      ⟨.error "error: target not found: ghost", ⟨.opened, 0, 0, []⟩⟩ ∧
    (install_packages envUnresolved ["ghost"] {}).trace.session ≠ .closed ∧
    (install_packages envUnresolved ["ghost"] {}).trace.releases = 0 ∧
    sync_install envUnresolved {} false false ["ghost"] =
      ⟨.error "error: target not found: ghost", ⟨.opened, 0, 0, []⟩⟩ := by
  decide

/-- C2: for every mutating operation, when the confirmation prompt is shown
(dry-run off, confirmation not suppressed, nonempty changeset) and the user
declines, the session is released, a `cancelled` history entry is recorded,
the operation returns success (exit code 0), and commit is never called
(zero commits in the trace); and on stdin input that trims to empty the
prompt's answer defaults to yes. -/
theorem C2_decline_cancels_without_commit :
    (∀ (env : Env) (g : GlobalFlags) (packages : List String),
      g.test = false → g.noconfirm = false → confirm_action env.stdin = false →
      env.initHandle = .ok () → env.transInit (installTransFlags g) = .ok () →
      add_sync_targets env packages = .ok () → env.prepare = .ok () →
      env.transAddPkgs ≠ [] →
      install_packages env packages g =
        ⟨.ok (), ⟨.closed, 1, 0, [⟨"install", "cancelled", packages,
          "user cancelled transaction"⟩]⟩⟩ ∧
      exit_code (install_packages env packages g).result = 0)
    ∧ (∀ (env : Env) (g : GlobalFlags) (pkg_files names : List String),
      g.test = false → g.noconfirm = false → confirm_action env.stdin = false →
      env.initHandle = .ok () → env.localFileSiglevel = .ok () →
      env.transInit (localTransFlags g) = .ok () →
      load_local_files env pkg_files = .ok names → env.prepare = .ok () →
      env.transAddPkgs ≠ [] →
      install_local env g pkg_files =
        ⟨.ok (), ⟨.closed, 1, 0, [⟨"install-local", "cancelled", names,
          "user cancelled transaction"⟩]⟩⟩ ∧
      exit_code (install_local env g pkg_files).result = 0)
    ∧ (∀ (env : Env) (g : GlobalFlags) (packages : List String) (r : RemoveFlags),
      g.test = false → g.noconfirm = false → confirm_action env.stdin = false →
      env.initHandle = .ok () → warn_remove_breakage env packages r = .ok () →
      env.transInit (removeTransFlags r g) = .ok () →
      add_remove_targets env packages = .ok () → env.prepare = .ok () →
      env.transRemovePkgs ≠ [] →
      remove_packages env packages r g =
        ⟨.ok (), ⟨.closed, 1, 0, [⟨"remove", "cancelled", packages,
          "user cancelled transaction"⟩]⟩⟩ ∧
      exit_code (remove_packages env packages r g).result = 0)
    ∧ (∀ (env : Env) (g : GlobalFlags) (targets : List String)
        (refresh upgrade : Bool),
      g.test = false → g.noconfirm = false → confirm_action env.stdin = false →
      env.initHandle = .ok () →
      (if refresh then (if g.test then Except.ok () else env.dbUpdate)
        else Except.ok ()) = .ok () →
      (!upgrade && targets.isEmpty) = false →
      env.transInit (installTransFlags g) = .ok () →
      (if upgrade then env.sysupgrade else Except.ok ()) = .ok () →
      add_sync_targets env targets = .ok () → env.prepare = .ok () →
      env.transAddPkgs ≠ [] →
      sync_install env g refresh upgrade targets =
        ⟨.ok (), ⟨.closed, 1, 0, [⟨"sync", "cancelled", targets,
          "user cancelled transaction"⟩]⟩⟩ ∧
      exit_code (sync_install env g refresh upgrade targets).result = 0)
    ∧ (∀ input : List Char, rust_trim input = [] →
        confirm_action input = true) := by
  refine ⟨?_, ?_, ?_, ?_, ?_⟩
  · intro env g packages htest hnc hconf hinit hti hadd hprep hcs
    have hne := map_name_isEmpty_false hcs
    have he : install_packages env packages g =
        ⟨.ok (), ⟨.closed, 1, 0, [⟨"install", "cancelled", packages,
          "user cancelled transaction"⟩]⟩⟩ := by
      simp only [install_packages, hinit, hti, hadd, trans_prepare_or_release,
        hprep]
      simp [hne, htest, hnc, hconf, release, recordCall]
    exact ⟨he, by rw [he]; rfl⟩
  · intro env g pkg_files names htest hnc hconf hinit hsig hti hload hprep hcs
    have hne := map_name_isEmpty_false hcs
    have he : install_local env g pkg_files =
        ⟨.ok (), ⟨.closed, 1, 0, [⟨"install-local", "cancelled", names,
          "user cancelled transaction"⟩]⟩⟩ := by
      simp only [install_local, hinit, hsig, hti, hload,
        trans_prepare_or_release, hprep]
      simp [hne, htest, hnc, hconf, release, recordCall]
    exact ⟨he, by rw [he]; rfl⟩
  · intro env g packages r htest hnc hconf hinit hwarn hti hadd hprep hcs
    have hne := list_isEmpty_false hcs
    have he : remove_packages env packages r g =
        ⟨.ok (), ⟨.closed, 1, 0, [⟨"remove", "cancelled", packages,
          "user cancelled transaction"⟩]⟩⟩ := by
      simp only [remove_packages, hinit, hwarn, hti, hadd,
        trans_prepare_or_release, hprep]
      simp [hne, htest, hnc, hconf, release, recordCall]
    exact ⟨he, by rw [he]; rfl⟩
  · intro env g targets refresh upgrade htest hnc hconf hinit hrs hreach hti
      hsys hadd hprep hcs
    have hne := map_name_isEmpty_false hcs
    have he : sync_install env g refresh upgrade targets =
        ⟨.ok (), ⟨.closed, 1, 0, [⟨"sync", "cancelled", targets,
          "user cancelled transaction"⟩]⟩⟩ := by
      simp only [sync_install, hinit, hrs, hreach, hti, hsys, hadd,
        trans_prepare_or_release, hprep]
      simp [hne, htest, hnc, hconf, release, recordCall]
    exact ⟨he, by rw [he]; rfl⟩
  · intro input h
    exact confirm_action_default_yes input h

/-- C6: whenever dependency resolution leaves an empty changeset, every
mutating operation releases the session, records a `noop` history entry,
and returns success (exit code 0), never a failure. -/
theorem C6_empty_changeset_noop :
    (∀ (env : Env) (g : GlobalFlags) (packages : List String),
      env.initHandle = .ok () → env.transInit (installTransFlags g) = .ok () →
      add_sync_targets env packages = .ok () → env.prepare = .ok () →
      env.transAddPkgs = [] →
      install_packages env packages g =
        ⟨.ok (), ⟨.closed, 1, 0, [⟨"install", "noop", packages,
          "no packages to install"⟩]⟩⟩ ∧
      exit_code (install_packages env packages g).result = 0)
    ∧ (∀ (env : Env) (g : GlobalFlags) (pkg_files names : List String),
      env.initHandle = .ok () → env.localFileSiglevel = .ok () →
      env.transInit (localTransFlags g) = .ok () →
      load_local_files env pkg_files = .ok names → env.prepare = .ok () →
      env.transAddPkgs = [] →
      install_local env g pkg_files =
        ⟨.ok (), ⟨.closed, 1, 0, [⟨"install-local", "noop", names,
          "no packages to install"⟩]⟩⟩ ∧
      exit_code (install_local env g pkg_files).result = 0)
    ∧ (∀ (env : Env) (g : GlobalFlags) (packages : List String) (r : RemoveFlags),
      env.initHandle = .ok () → warn_remove_breakage env packages r = .ok () →
      env.transInit (removeTransFlags r g) = .ok () →
      add_remove_targets env packages = .ok () → env.prepare = .ok () →
      env.transRemovePkgs = [] →
      remove_packages env packages r g =
        ⟨.ok (), ⟨.closed, 1, 0, [⟨"remove", "noop", packages,
          "no packages to remove"⟩]⟩⟩ ∧
      exit_code (remove_packages env packages r g).result = 0)
    ∧ (∀ (env : Env) (g : GlobalFlags) (targets : List String)
        (refresh upgrade : Bool),
      env.initHandle = .ok () →
      (if refresh then (if g.test then Except.ok () else env.dbUpdate)
        else Except.ok ()) = .ok () →
      (!upgrade && targets.isEmpty) = false →
      env.transInit (installTransFlags g) = .ok () →
      (if upgrade then env.sysupgrade else Except.ok ()) = .ok () →
      add_sync_targets env targets = .ok () → env.prepare = .ok () →
      env.transAddPkgs = [] →
      sync_install env g refresh upgrade targets =
        ⟨.ok (), ⟨.closed, 1, 0, [⟨"sync", "noop", targets,
          "no package changes"⟩]⟩⟩ ∧
      exit_code (sync_install env g refresh upgrade targets).result = 0) := by
  refine ⟨?_, ?_, ?_, ?_⟩
  · intro env g packages hinit hti hadd hprep hcs
    have he : install_packages env packages g =
        ⟨.ok (), ⟨.closed, 1, 0, [⟨"install", "noop", packages,
          "no packages to install"⟩]⟩⟩ := by
      simp only [install_packages, hinit, hti, hadd, trans_prepare_or_release,
        hprep, hcs]
      simp [release, recordCall]
    exact ⟨he, by rw [he]; rfl⟩
  · intro env g pkg_files names hinit hsig hti hload hprep hcs
    have he : install_local env g pkg_files =
        ⟨.ok (), ⟨.closed, 1, 0, [⟨"install-local", "noop", names,
          "no packages to install"⟩]⟩⟩ := by
      simp only [install_local, hinit, hsig, hti, hload,
        trans_prepare_or_release, hprep, hcs]
      simp [release, recordCall]
    exact ⟨he, by rw [he]; rfl⟩
  · intro env g packages r hinit hwarn hti hadd hprep hcs
    have he : remove_packages env packages r g =
        ⟨.ok (), ⟨.closed, 1, 0, [⟨"remove", "noop", packages,
          "no packages to remove"⟩]⟩⟩ := by
      simp only [remove_packages, hinit, hwarn, hti, hadd,
        trans_prepare_or_release, hprep, hcs]
      simp [release, recordCall]
    exact ⟨he, by rw [he]; rfl⟩
  · intro env g targets refresh upgrade hinit hrs hreach hti hsys hadd hprep hcs
    have he : sync_install env g refresh upgrade targets =
        ⟨.ok (), ⟨.closed, 1, 0, [⟨"sync", "noop", targets,
          "no package changes"⟩]⟩⟩ := by
      simp only [sync_install, hinit, hrs, hreach, hti, hsys, hadd,
        trans_prepare_or_release, hprep, hcs]
      simp [release, recordCall]
    exact ⟨he, by rw [he]; rfl⟩

/-- C7: for every commit attempt (the prompt passed or was suppressed,
dry-run off, nonempty changeset), the session is released exactly once
right after the commit call returns, in both outcomes; a `success` or
`failed` history entry is recorded accordingly; and on failure the original
commit error is propagated to the caller unchanged. -/
theorem C7_commit_release_and_history :
    (∀ (env : Env) (g : GlobalFlags) (packages : List String),
      env.initHandle = .ok () → env.transInit (installTransFlags g) = .ok () →
      add_sync_targets env packages = .ok () → env.prepare = .ok () →
      env.transAddPkgs ≠ [] → g.test = false →
      (g.noconfirm = true ∨ confirm_action env.stdin = true) →
      (env.commit = .ok () → install_packages env packages g =
        ⟨.ok (), ⟨.closed, 1, 1, [⟨"install", "success", packages,
          "transaction committed"⟩]⟩⟩) ∧
      (∀ e, env.commit = .error e → install_packages env packages g =
        ⟨.error e, ⟨.closed, 1, 1, [⟨"install", "failed", packages,
          "transaction commit failed"⟩]⟩⟩))
    ∧ (∀ (env : Env) (g : GlobalFlags) (pkg_files names : List String),
      env.initHandle = .ok () → env.localFileSiglevel = .ok () →
      env.transInit (localTransFlags g) = .ok () →
      load_local_files env pkg_files = .ok names → env.prepare = .ok () →
      env.transAddPkgs ≠ [] → g.test = false →
      (g.noconfirm = true ∨ confirm_action env.stdin = true) →
      (env.commit = .ok () → install_local env g pkg_files =
        ⟨.ok (), ⟨.closed, 1, 1, [⟨"install-local", "success", names,
          "transaction committed"⟩]⟩⟩) ∧
      (∀ e, env.commit = .error e → install_local env g pkg_files =
        ⟨.error e, ⟨.closed, 1, 1, [⟨"install-local", "failed", names,
          "transaction commit failed"⟩]⟩⟩))
    ∧ (∀ (env : Env) (g : GlobalFlags) (packages : List String) (r : RemoveFlags),
      env.initHandle = .ok () → warn_remove_breakage env packages r = .ok () →
      env.transInit (removeTransFlags r g) = .ok () →
      add_remove_targets env packages = .ok () → env.prepare = .ok () →
      env.transRemovePkgs ≠ [] → g.test = false →
      (g.noconfirm = true ∨ confirm_action env.stdin = true) →
      (env.commit = .ok () → remove_packages env packages r g =
        ⟨.ok (), ⟨.closed, 1, 1, [⟨"remove", "success", packages,
          "transaction committed"⟩]⟩⟩) ∧
      (∀ e, env.commit = .error e → remove_packages env packages r g =
        ⟨.error e, ⟨.closed, 1, 1, [⟨"remove", "failed", packages,
          "transaction commit failed"⟩]⟩⟩))
    ∧ (∀ (env : Env) (g : GlobalFlags) (targets : List String)
        (refresh upgrade : Bool),
      env.initHandle = .ok () →
      (if refresh then (if g.test then Except.ok () else env.dbUpdate)
        else Except.ok ()) = .ok () →
      (!upgrade && targets.isEmpty) = false →
      env.transInit (installTransFlags g) = .ok () →
      (if upgrade then env.sysupgrade else Except.ok ()) = .ok () →
      add_sync_targets env targets = .ok () → env.prepare = .ok () →
      env.transAddPkgs ≠ [] → g.test = false →
      (g.noconfirm = true ∨ confirm_action env.stdin = true) →
      (env.commit = .ok () → sync_install env g refresh upgrade targets =
        ⟨.ok (), ⟨.closed, 1, 1, [⟨"sync", "success", targets,
          "transaction committed"⟩]⟩⟩) ∧
      (∀ e, env.commit = .error e → sync_install env g refresh upgrade targets =
        ⟨.error e, ⟨.closed, 1, 1, [⟨"sync", "failed", targets,
          "transaction commit failed"⟩]⟩⟩)) := by
  refine ⟨?_, ?_, ?_, ?_⟩
  · intro env g packages hinit hti hadd hprep hcs htest hok
    have hne := map_name_isEmpty_false hcs
    constructor
    · intro hcm
      simp only [install_packages, hinit, hti, hadd, trans_prepare_or_release,
        hprep]
      rcases hok with h | h <;>
        simp [hne, htest, h, hcm, release, recordCall, apply_install_reasons]
    · intro e hcm
      simp only [install_packages, hinit, hti, hadd, trans_prepare_or_release,
        hprep]
      rcases hok with h | h <;>
        simp [hne, htest, h, hcm, release, recordCall]
  · intro env g pkg_files names hinit hsig hti hload hprep hcs htest hok
    have hne := map_name_isEmpty_false hcs
    constructor
    · intro hcm
      simp only [install_local, hinit, hsig, hti, hload,
        trans_prepare_or_release, hprep]
      rcases hok with h | h <;>
        simp [hne, htest, h, hcm, release, recordCall, apply_install_reasons]
    · intro e hcm
      simp only [install_local, hinit, hsig, hti, hload,
        trans_prepare_or_release, hprep]
      rcases hok with h | h <;>
        simp [hne, htest, h, hcm, release, recordCall]
  · intro env g packages r hinit hwarn hti hadd hprep hcs htest hok
    have hne := list_isEmpty_false hcs
    constructor
    · intro hcm
      simp only [remove_packages, hinit, hwarn, hti, hadd,
        trans_prepare_or_release, hprep]
      rcases hok with h | h <;>
        simp [hne, htest, h, hcm, release, recordCall]
    · intro e hcm
      simp only [remove_packages, hinit, hwarn, hti, hadd,
        trans_prepare_or_release, hprep]
      rcases hok with h | h <;>
        simp [hne, htest, h, hcm, release, recordCall]
  · intro env g targets refresh upgrade hinit hrs hreach hti hsys hadd hprep
      hcs htest hok
    have hne := map_name_isEmpty_false hcs
    constructor
    · intro hcm
      simp only [sync_install, hinit, hrs, hreach, hti, hsys, hadd,
        trans_prepare_or_release, hprep]
      rcases hok with h | h <;>
        simp [hne, htest, h, hcm, release, recordCall, apply_install_reasons]
    · intro e hcm
      simp only [sync_install, hinit, hrs, hreach, hti, hsys, hadd,
        trans_prepare_or_release, hprep]
      rcases hok with h | h <;>
        simp [hne, htest, h, hcm, release, recordCall]

/-- C10: a sync invocation with refresh set, upgrade unset and no targets
(`-Sy`) returns success immediately after the database refresh step: no
transaction is ever initialized (session stays `unopened`) and no history
entry is recorded — the ledger is unchanged by a pure refresh. -/
theorem C10_pure_refresh_no_transaction (env : Env) (g : GlobalFlags)
    (hinit : env.initHandle = .ok ())
    (hrs : (if g.test then Except.ok () else env.dbUpdate) =
      (.ok () : Except String Unit)) :
    sync_install env g true false [] = ⟨.ok (), ⟨.unopened, 0, 0, []⟩⟩ ∧
    (sync_install env g true false []).trace.history = [] ∧
    (sync_install env g true false []).trace.session = .unopened ∧
    exit_code (sync_install env g true false []).result = 0 := by
  have he : sync_install env g true false [] =
      ⟨.ok (), ⟨.unopened, 0, 0, []⟩⟩ := by
    simp only [sync_install, hinit]
    simp [hrs]
  refine ⟨he, ?_, ?_, ?_⟩ <;> simp [he, exit_code]

/-- C3, corrected: the full record-then-read round trip is not exact for
every summary string. `read` splits the ledger with Rust's `lines()`, which
also strips one carriage return at the end of each line, and `'\r'` is not
escaped; a summary ending in `'\r'` is read back without it. At the concrete
input `record(install, success, [], "a\n\r")` — a summary that does contain
a newline — the entry read back has summary `"a\n"`, not the original. -/
theorem C3_trailing_cr_breaks_roundtrip :
    read_entries_content
        (record_line 5 7 ("install").data ("success").data [] ['a', '\n', '\r']) ≠
      [⟨mkId 5 7, 5, ("install").data, ("success").data, target_text [],
        ['a', '\n', '\r']⟩] ∧
    (read_entries_content
        (record_line 5 7 ("install").data ("success").data [] ['a', '\n', '\r'])).map
      Entry.summary = [['a', '\n']] := by
  decide

/-- C3, amended: for every operation, status, target list and summary —
including strings containing `|`, `\\` or newline — provided the summary
does not end in a carriage return (which `lines()` strips on read), `record`
followed by `read` yields back the exact original operation, status and
summary strings and the exact targets text, the record occupies exactly one
line (one newline, at the end), and escape/unescape is lossless
(`unescape (escape s) = s` for every string). -/
theorem C3_record_read_roundtrip (now pid : Nat) (operation status : List Char)
    (targets : List (List Char)) (summary : List Char)
    (hnow : now < 2 ^ 64) (hsum : summary.getLast? ≠ some '\r') :
    read_entries_content (record_line now pid operation status targets summary) =
      [⟨mkId now pid, now, operation, status, target_text targets, summary⟩] ∧
    (record_line now pid operation status targets summary).count '\n' = 1 ∧
    (∀ s : List Char, unescape (escape s) = s) :=
  ⟨read_record_line now pid operation status targets summary hnow hsum,
   record_line_one_newline now pid operation status targets summary,
   unescape_escape⟩

theorem C3_record_read_roundtrip_witness :
    (5 : Nat) < 2 ^ 64 ∧ (['m'] : List Char).getLast? ≠ some '\r' ∧
    (read_entries_content (record_line 5 7 ['i'] ['s'] [['t']] ['m']) =
        [⟨mkId 5 7, 5, ['i'], ['s'], target_text [['t']], ['m']⟩] ∧
      (record_line 5 7 ['i'] ['s'] [['t']] ['m']).count '\n' = 1 ∧
      (∀ s : List Char, unescape (escape s) = s)) :=
  ⟨by decide, by decide,
    C3_record_read_roundtrip 5 7 ['i'] ['s'] [['t']] ['m'] (by decide)
      (by decide)⟩

/-- C4, corrected: a token sequence merely containing two different
operation-selecting characters need not fail: after the `--` terminator
(or as a positional target) such characters are plain target text. Concretely
`rustpack -S -- -Q` parses successfully (with `-Q` as a target), it does not
fail with the only-one-operation error. -/
theorem C4_op_chars_after_terminator_parse_ok :
    (parse_args ["rustpack", "-S", "--", "-Q"]).isOk = true ∧
    parse_args ["rustpack", "-S", "--", "-Q"] ≠
      .error "error: only one operation may be used at a time" := by
  decide

/-- C4, amended: whenever two different operation-selecting characters among
`S`, `Q`, `R`, `U` (or a pseudo-operation such as `--doctor`) are actually
selected during option scanning — in one cluster, in two clusters, or mixed
with a pseudo-operation — parsing fails with "only one operation may be used
at a time"; selecting the same operation character twice is a no-op: the
parse result is identical to selecting it once. -/
theorem C4_operation_selection_checks :
    (∀ (prog : String) (r : List String) (c₁ c₂ : Char),
      c₁ ∈ op_chars → c₂ ∈ op_chars → c₁ ≠ c₂ →
      parse_args (prog :: String.mk ['-', c₁, c₂] :: r) =
        .error "error: only one operation may be used at a time")
    ∧ (∀ (prog : String) (r : List String) (c₁ c₂ : Char),
      c₁ ∈ op_chars → c₂ ∈ op_chars → c₁ ≠ c₂ →
      parse_args (prog :: String.mk ['-', c₁] :: String.mk ['-', c₂] :: r) =
        .error "error: only one operation may be used at a time")
    ∧ (∀ (prog : String) (r : List String) (c : Char), c ∈ op_chars →
      parse_args (prog :: "--doctor" :: String.mk ['-', c] :: r) =
        .error "error: only one operation may be used at a time")
    ∧ (∀ (prog : String) (r : List String) (c : Char), c ∈ op_chars →
      parse_args (prog :: String.mk ['-', c, c] :: r) =
        parse_args (prog :: String.mk ['-', c] :: r))
    ∧ (∀ (prog : String) (r : List String) (c : Char), c ∈ op_chars →
      parse_args (prog :: String.mk ['-', c] :: String.mk ['-', c] :: r) =
        parse_args (prog :: String.mk ['-', c] :: r)) := by
  refine ⟨?_, ?_, ?_, ?_, ?_⟩
  · intro prog r c₁ c₂ h1 h2 hne
    simp [op_chars] at h1 h2
    rcases h1 with rfl | rfl | rfl | rfl <;> rcases h2 with rfl | rfl | rfl | rfl <;>
      first
        | exact absurd rfl hne
        | rfl
  · intro prog r c₁ c₂ h1 h2 hne
    simp [op_chars] at h1 h2
    rcases h1 with rfl | rfl | rfl | rfl <;> rcases h2 with rfl | rfl | rfl | rfl <;>
      first
        | exact absurd rfl hne
        | rfl
  · intro prog r c h1
    simp [op_chars] at h1
    rcases h1 with rfl | rfl | rfl | rfl <;> rfl
  · intro prog r c h1
    simp [op_chars] at h1
    rcases h1 with rfl | rfl | rfl | rfl <;> rfl
  · intro prog r c h1
    simp [op_chars] at h1
    rcases h1 with rfl | rfl | rfl | rfl <;> rfl

theorem C4_operation_selection_checks_witness :
    parse_args ["rustpack", String.mk ['-', 'S', 'Q']] =
      .error "error: only one operation may be used at a time" :=
  C4_operation_selection_checks.1 "rustpack" [] 'S' 'Q' (by decide) (by decide)
    (by decide)

/-- C5: with strict mode set, every successful parse carries no
dependency-bypass level, no scriptlet suppression and an empty overwrite
list — the strict rejections happen at parse time, never silently dropped —
and the three strict-mode combinations are rejected with their hard errors. -/
theorem C5_strict_rejected_at_parse_time :
    (∀ (argv : List String) (p : ParsedArgs),
      parse_args argv = .ok p → p.global.strict = true →
      p.global.nodeps = 0 ∧ p.global.noscriptlet = false ∧
        p.global.overwrite = [])
    ∧ parse_args ["rustpack", "-S", "pkg", "--strict", "--nodeps"] =
        .error "error: --strict disallows --nodeps/-d/-dd"
    ∧ parse_args ["rustpack", "-S", "pkg", "--strict", "--noscriptlet"] =
        .error "error: --strict disallows --noscriptlet"
    ∧ parse_args ["rustpack", "-S", "pkg", "--strict", "--overwrite", "/x"] =
        .error "error: --strict disallows --overwrite" := by
  refine ⟨?_, by decide, by decide, by decide⟩
  intro argv p h hs
  unfold parse_args at h
  cases hsc : scan_tokens true true none [] [] {} argv.tail with
  | error e => rw [hsc] at h; exact absurd h (by simp)
  | ok out =>
    rw [hsc] at h
    cases out with
    | help =>
      have hp : p = ⟨.help, {}, {}, {}, [], {}⟩ := by
        injection h with h'
        exact h'.symm
      subst hp
      exact ⟨rfl, rfl, rfl⟩
    | st op fc tg g =>
      cases op with
      | none => exact absurd h (by simp)
      | some o => exact validate_parsed_ok h hs

theorem C5_strict_rejected_at_parse_time_witness :
    (⟨.sync, {}, {}, {}, ["pkg"], { strict := true }⟩ : ParsedArgs).global.nodeps = 0 ∧
    (⟨.sync, {}, {}, {}, ["pkg"], { strict := true }⟩ : ParsedArgs).global.noscriptlet = false ∧
    (⟨.sync, {}, {}, {}, ["pkg"], { strict := true }⟩ : ParsedArgs).global.overwrite = [] :=
  C5_strict_rejected_at_parse_time.1 ["rustpack", "-S", "pkg", "--strict"]
    ⟨.sync, {}, {}, {}, ["pkg"], { strict := true }⟩ (by decide) rfl

/-- C8, corrected: identifiers are `now_secs()-pid`, with one-second
resolution. Two record calls in the same process during the same wall-clock
second generate the identical identifier, so rapid repeated invocations are
not unique: the two-call trace at seconds `[100, 100]` has a duplicate. -/
theorem C8_duplicate_ids_under_rapid_calls :
    (record_ids 7 [100, 100]).length = 2 ∧
    ¬ (record_ids 7 [100, 100]).Nodup := by
  decide

/-- C8, amended: two generated history identifiers are equal exactly when
both the wall-clock second and the process id coincide — so identifiers are
unique across calls that differ in second or process id, and collide for
rapid repeated calls within one second of one process. -/
theorem C8_id_equality_characterization (t₁ p₁ t₂ p₂ : Nat) :
    mkId t₁ p₁ = mkId t₂ p₂ ↔ t₁ = t₂ ∧ p₁ = p₂ := by
  constructor
  · intro h
    unfold mkId at h
    obtain ⟨h1, h2⟩ :=
      append_sep_inj (natToChars_no_dash t₁) (natToChars_no_dash t₂) h
    exact ⟨natToChars_injective h1, natToChars_injective h2⟩
  · rintro ⟨rfl, rfl⟩
    rfl

/-- C9: reading the ledger silently drops exactly the lines that do not
split (with `splitn(6, '|')`) into six fields or whose timestamp field does
not parse as a `u64`; `read` returns the well-formed entries in file order
(a `filterMap` over the file's lines) and never returns an error because of
a truncated or corrupted line (a missing file is an empty history). -/
theorem C9_read_drops_malformed_lines :
    (∀ line : List Char,
        parse_entry line = none ↔
          (splitn 6 '|' line).length ≠ 6 ∨
            parse_u64 ((splitn 6 '|' line).getD 1 []) = none)
    ∧ (∀ content : List Char,
        read_entries_content content = (rustLines content).filterMap parse_entry)
    ∧ (∀ file : Option (List Char), ∃ entries, read_entries file = .ok entries) := by
  refine ⟨?_, fun _ => rfl, ?_⟩
  · intro line
    unfold parse_entry
    rcases hs : splitn 6 '|' line with
      - | ⟨p0, - | ⟨p1, - | ⟨p2, - | ⟨p3, - | ⟨p4, - | ⟨p5, - | ⟨p6, rest⟩⟩⟩⟩⟩⟩⟩
    · simp [hs]
    · simp [hs]
    · simp [hs]
    · simp [hs]
    · simp [hs]
    · simp [hs]
    · cases hp : parse_u64 p1 <;> simp [hp]
    · simp [hs]
  · intro file
    cases file
    · exact ⟨[], rfl⟩
    · exact ⟨_, rfl⟩

theorem C2_decline_cancels_without_commit_witness :
    install_packages envDecline ["pkg"] {} =
      ⟨.ok (), ⟨.closed, 1, 0, [⟨"install", "cancelled", ["pkg"],
        "user cancelled transaction"⟩]⟩⟩ ∧
    exit_code (install_packages envDecline ["pkg"] {}).result = 0 :=
  C2_decline_cancels_without_commit.1 envDecline {} ["pkg"] rfl rfl (by decide)
    rfl rfl (by decide) rfl (by decide)

theorem C6_empty_changeset_noop_witness :
    install_packages envBase ["pkg"] {} =
      ⟨.ok (), ⟨.closed, 1, 0, [⟨"install", "noop", ["pkg"],
        "no packages to install"⟩]⟩⟩ ∧
    exit_code (install_packages envBase ["pkg"] {}).result = 0 :=
  C6_empty_changeset_noop.1 envBase {} ["pkg"] rfl rfl (by decide) rfl rfl

theorem C7_commit_release_and_history_witness :
    install_packages envDecline ["pkg"] { noconfirm := true } =
      ⟨.ok (), ⟨.closed, 1, 1, [⟨"install", "success", ["pkg"],
        "transaction committed"⟩]⟩⟩ :=
  (C7_commit_release_and_history.1 envDecline { noconfirm := true } ["pkg"]
    rfl rfl (by decide) rfl (by decide) rfl (Or.inl rfl)).1 rfl

theorem C10_pure_refresh_no_transaction_witness :
    sync_install envBase {} true false [] = ⟨.ok (), ⟨.unopened, 0, 0, []⟩⟩ :=
  (C10_pure_refresh_no_transaction envBase {} rfl (by decide)).1

end Rustpack
